import Mathlib

/-!
Shallow embedding of the word-sampling and translation-reconciliation core
of the language-learning agent (`src/agent/tools.py`).

Python conventions modelled here:
* Python exceptions are modelled by the `PyErr` type and fallible
  computations by `Except PyErr`.  `json.JSONDecodeError` is a subclass of
  `ValueError`, so both parse failures are `PyErr.valueError`.
* JSON values are modelled by `Json`; `json.loads` by `jsonParse`
  (a fuelled recursive-descent parser over the JSON grammar; numeric
  literals are kept as raw text since no code path inspects them).
* Python dicts are modelled as association lists; a lookup takes the last
  matching binding, as `json.loads` keeps the last of duplicate keys.
* `random.sample(pop, n)` is modelled by `randomSample`, with the random
  source made explicit as a tape of naturals: each step removes the element
  at index `tape-value mod remaining-length`.  Quantifying over tapes
  covers every possible randomness outcome; `random.sample` raises
  `ValueError` when `n` exceeds the population size, before drawing.
-/

inductive PyErr where
  | valueError
  | keyError
  | typeError
  | attributeError
deriving DecidableEq, Repr

inductive Json where
  | null
  | bool (b : Bool)
  | num (lit : String)
  | str (s : String)
  | arr (elems : List Json)
  | obj (fields : List (String × Json))
deriving Repr

/-- Whitespace accepted between JSON tokens (as in Python's `json`). -/
def isJsonWs (c : Char) : Bool :=
  c == ' ' || c == '\t' || c == '\n' || c == '\r'

def skipWs : List Char → List Char
  | [] => []
  | c :: cs => if isJsonWs c then skipWs cs else c :: cs

/-- Value of one hexadecimal digit, for `\u` escapes. -/
def hexVal (c : Char) : Option Nat :=
  let n := c.toNat
  if 48 ≤ n && n ≤ 57 then some (n - 48)
  else if 97 ≤ n && n ≤ 102 then some (n - 87)
  else if 65 ≤ n && n ≤ 70 then some (n - 55)
  else none

/-- Scan a JSON string body (the opening quote already consumed),
handling the escape sequences of the JSON grammar. -/
def scanString (acc : List Char) : List Char → Option (String × List Char)
  | [] => none
  | c :: cs =>
    if c = '"' then some (String.mk acc.reverse, cs)
    else if c = '\\' then
      match cs with
      | [] => none
      | e :: cs2 =>
        if e = '"' then scanString ('"' :: acc) cs2
        else if e = '\\' then scanString ('\\' :: acc) cs2
        else if e = '/' then scanString ('/' :: acc) cs2
        else if e = 'b' then scanString (Char.ofNat 8 :: acc) cs2
        else if e = 'f' then scanString (Char.ofNat 12 :: acc) cs2
        else if e = 'n' then scanString ('\n' :: acc) cs2
        else if e = 'r' then scanString ('\r' :: acc) cs2
        else if e = 't' then scanString ('\t' :: acc) cs2
        else if e = 'u' then
          match cs2 with
          | h1 :: h2 :: h3 :: h4 :: cs3 =>
            match hexVal h1, hexVal h2, hexVal h3, hexVal h4 with
            | some a, some b, some c2, some d =>
              scanString (Char.ofNat (a * 4096 + b * 256 + c2 * 16 + d) :: acc) cs3
            | _, _, _, _ => none
          | _ => none
        else none
    else if c.toNat < 32 then none
    else scanString (c :: acc) cs

def takeDigits (cs : List Char) : List Char × List Char :=
  cs.span Char.isDigit

/-- Scan a JSON numeric literal, returning its raw text. -/
def scanNumber (cs : List Char) : Option (List Char × List Char) :=
  let (sign, cs1) :=
    match cs with
    | '-' :: r => ([('-' : Char)], r)
    | _ => (([] : List Char), cs)
  match cs1 with
  | [] => none
  | c :: r =>
    if c = '0' then
      let intPart := [c]
      scanFrac sign intPart r
    else if c.isDigit then
      let (ds, r2) := takeDigits (c :: r)
      scanFrac sign ds r2
    else none
where
  scanFrac (sign intPart : List Char) (rest : List Char) : Option (List Char × List Char) :=
    match rest with
    | '.' :: r3 =>
      let (fds, r4) := takeDigits r3
      if fds.isEmpty then none
      else scanExp sign (intPart ++ '.' :: fds) r4
    | _ => scanExp sign intPart rest
  scanExp (sign mantissa : List Char) (rest : List Char) : Option (List Char × List Char) :=
    match rest with
    | e :: r5 =>
      if e = 'e' ∨ e = 'E' then
        let (esign, r6) :=
          match r5 with
          | '+' :: r7 => ([('+' : Char)], r7)
          | '-' :: r7 => ([('-' : Char)], r7)
          | _ => (([] : List Char), r5)
        let (eds, r8) := takeDigits r6
        if eds.isEmpty then none
        else some (sign ++ mantissa ++ e :: esign ++ eds, r8)
      else some (sign ++ mantissa, rest)
    | [] => some (sign ++ mantissa, [])

mutual

/-- Fuelled recursive-descent parse of one JSON value (Python also accepts
the non-standard literals `Infinity`, `-Infinity` and `NaN` by default). -/
def parseValue : Nat → List Char → Option (Json × List Char)
  | 0, _ => none
  | fuel + 1, cs =>
    match skipWs cs with
    | [] => none
    | c :: rest =>
      if c = '"' then
        match scanString [] rest with
        | some (s, r) => some (.str s, r)
        | none => none
      else if c = '{' then
        match skipWs rest with
        | '}' :: r2 => some (.obj [], r2)
        | r2 => match parseMembers fuel r2 with
          | some (fields, r3) => some (.obj fields, r3)
          | none => none
      else if c = '[' then
        match skipWs rest with
        | ']' :: r2 => some (.arr [], r2)
        | r2 => match parseItems fuel r2 with
          | some (elems, r3) => some (.arr elems, r3)
          | none => none
      else
        match c :: rest with
        | 't' :: 'r' :: 'u' :: 'e' :: r => some (.bool true, r)
        | 'f' :: 'a' :: 'l' :: 's' :: 'e' :: r => some (.bool false, r)
        | 'n' :: 'u' :: 'l' :: 'l' :: r => some (.null, r)
        | 'N' :: 'a' :: 'N' :: r => some (.num "NaN", r)
        | 'I' :: 'n' :: 'f' :: 'i' :: 'n' :: 'i' :: 't' :: 'y' :: r =>
          some (.num "Infinity", r)
        | '-' :: 'I' :: 'n' :: 'f' :: 'i' :: 'n' :: 'i' :: 't' :: 'y' :: r =>
          some (.num "-Infinity", r)
        | cs2 =>
          match scanNumber cs2 with
          | some (lit, r) => some (.num (String.mk lit), r)
          | none => none

/-- Parse a non-empty `"key": value` member list followed by `}`. -/
def parseMembers : Nat → List Char → Option (List (String × Json) × List Char)
  | 0, _ => none
  | fuel + 1, cs =>
    match cs with
    | '"' :: rest =>
      match scanString [] rest with
      | none => none
      | some (key, r2) =>
        match skipWs r2 with
        | ':' :: r3 =>
          match parseValue fuel r3 with
          | none => none
          | some (v, r4) =>
            match skipWs r4 with
            | ',' :: r5 =>
              match parseMembers fuel (skipWs r5) with
              | some (fields, r6) => some ((key, v) :: fields, r6)
              | none => none
            | '}' :: r5 => some ([(key, v)], r5)
            | _ => none
        | _ => none
    | _ => none

/-- Parse a non-empty value list followed by `]`. -/
def parseItems : Nat → List Char → Option (List Json × List Char)
  | 0, _ => none
  | fuel + 1, cs =>
    match parseValue fuel cs with
    | none => none
    | some (v, r) =>
      match skipWs r with
      | ',' :: r2 =>
        match parseItems fuel r2 with
        | some (elems, r3) => some (v :: elems, r3)
        | none => none
      | ']' :: r2 => some ([v], r2)
      | _ => none

end

/-- Model of `json.loads`: parse one JSON document and require that only
whitespace remains. -/
def jsonParse (text : String) : Option Json :=
  let cs := text.data
  match parseValue (cs.length + 2) cs with
  | some (j, rest) => if (skipWs rest).isEmpty then some j else none
  | none => none

/-- Model of `re.search(r"\x7b.*\x7d", text, re.DOTALL)` followed by
`match.group(0)`: the match starts at the first `{` of the text and the
greedy `.*` extends it to the last `}` (which must lie after that `{`);
`re.DOTALL` lets `.` cross newlines, so the span is a plain substring. -/
def extractBracesSpan (text : String) : Option String :=
  let cs := text.data
  match cs.findIdx? (fun c => c == '{') with
  | none => none
  | some i =>
    let rest := cs.drop (i + 1)
    match rest.reverse.findIdx? (fun c => c == '}') with
    | none => none
    | some k =>
      let jr := rest.length - 1 - k
      some (String.mk ('{' :: rest.take (jr + 1)))

/-- The parse stage of `translate_words` (`src/agent/tools.py`, lines
139-147): try `json.loads` on the whole text; on failure regex-extract a
brace-delimited span and `json.loads` that (its failure raises
`json.JSONDecodeError`, a `ValueError`); with no span, raise
`ValueError("Could not parse JSON from translation response.")`. -/
def parseResponse (text : String) : Except PyErr Json :=
  match jsonParse text with
  | some j => .ok j
  | none =>
    match extractBracesSpan text with
    | some frag =>
      match jsonParse frag with
      | some j => .ok j
      | none => .error .valueError
    | none => .error .valueError

/-- Python `dict.get(k, d)` on a dict built from a JSON object's fields:
`json.loads` keeps the last of duplicate keys, so take the last binding. -/
def pyObjGet (fields : List (String × Json)) (k : String) (d : Json) : Json :=
  match fields.reverse.find? (fun kv => kv.fst == k) with
  | some kv => kv.snd
  | none => d

/-- Python iteration over a value: lists yield elements, strings yield
one-character strings, dicts yield their keys; other values raise
`TypeError`. -/
def pyIter : Json → Except PyErr (List Json)
  | .arr xs => .ok xs
  | .str s => .ok (s.data.map (fun c => Json.str (String.mk [c])))
  | .obj fields => .ok (fields.map (fun kv => Json.str kv.fst))
  | _ => .error .typeError

/-- Python `isinstance(item, dict)`. -/
def isDict : Json → Bool
  | .obj _ => true
  | _ => false

/-- Python hashability of a decoded JSON value: strings, numbers,
booleans and `None` are hashable; lists and dicts are not, and using one
as a dict key raises `TypeError`. -/
def isHashable : Json → Bool
  | .arr _ => false
  | .obj _ => false
  | _ => true

/-- The key a translations entry would contribute to the comprehension
(`item.get("source", "")`) is hashable; non-dict entries contribute
nothing and are vacuously fine. -/
def entrySourceHashable : Json → Bool
  | .obj ifields => isHashable (pyObjGet ifields "source" (.str ""))
  | _ => true

/-- The dict comprehension of `src/agent/tools.py` line 151:
`{item.get("source", ""): item.get("target", "") for item in
 translations_list if isinstance(item, dict)}`, kept as the binding list;
lookups via `modelMapGet` take the last matching binding, as a dict built
left to right does.  Inserting a key that is a JSON list or object
raises `TypeError` (unhashable type), as CPython does while evaluating
the comprehension. -/
def buildModelMap : List Json → Except PyErr (List (Json × Json))
  | [] => .ok []
  | item :: rest =>
    match item with
    | .obj ifields =>
      let k := pyObjGet ifields "source" (.str "")
      if isHashable k then
        match buildModelMap rest with
        | .error e => .error e
        | .ok m => .ok ((k, pyObjGet ifields "target" (.str "")) :: m)
      else .error .typeError
    | _ => buildModelMap rest

/-- Python `w == key` for a string `w` against an arbitrary value:
true only for an equal string. -/
def strKeyMatches (w : String) : Json → Bool
  | .str s => s == w
  | _ => false

/-- Python `model_map.get(w)` for a string key `w`: the value of the last binding
whose key equals `w`, if any. -/
def modelMapGet (m : List (Json × Json)) (w : String) : Option Json :=
  (m.reverse.find? (fun kv => strKeyMatches w kv.fst)).map Prod.snd

/-- Python `str.capitalize()` (ASCII model): upper-case the first
character, lower-case the rest. -/
def pyCapitalize (s : String) : String :=
  match s.data with
  | [] => ""
  | c :: cs => String.mk (c.toUpper :: cs.map Char.toLower)

structure TranslationPair where
  source : String
  target : Json
deriving Repr

/-- The reconciliation stage of `translate_words` (`src/agent/tools.py`,
lines 149-159), applied to the parsed response:
`translations_list = parsed.get("translations", [])` (an `AttributeError`
if `parsed` is not a dict), the `model_map` comprehension, and the ordered
output `{"source": w, "target": model_map.get(w,
model_map.get(w.capitalize(), w))}` per input word.  The result models the
`"translations"` list of the returned dict. -/
def translateWordsFromParsed (random_words : List String) (parsed : Json) :
    Except PyErr (List TranslationPair) :=
  match parsed with
  | .obj fields =>
    match pyIter (pyObjGet fields "translations" (.arr [])) with
    | .error e => .error e
    | .ok tlist =>
      match buildModelMap tlist with
      | .error e => .error e
      | .ok model_map =>
        .ok (random_words.map (fun w =>
          { source := w
            target := (modelMapGet model_map w).getD
              ((modelMapGet model_map (pyCapitalize w)).getD (.str w)) }))
  | _ => .error .attributeError

/-- Model of `translate_words` (`src/agent/tools.py`, lines 107-159) as a function
of the input words and the raw text returned by the translation model:
parse the text (strictly, then via the extracted brace span), then
reconcile against the input order. -/
def translate_words (random_words : List String) (text : String) :
    Except PyErr (List TranslationPair) :=
  match parseResponse text with
  | .ok parsed => translateWordsFromParsed random_words parsed
  | .error e => .error e

/-- A record of the backing word-list resource
(`data/<language>/word-list-cleaned.json`).  The two fields the code
reads are modelled; `none` models a record missing that JSON key. -/
structure Record where
  word : Option String
  word_difficulty : Option String
deriving DecidableEq, Repr

/-- One draw step of `random.sample`, made explicit: remove the element at
index `tape-head mod length` and continue on the rest of the tape. -/
def draw {α : Type} : Nat → List α → List Nat → List α
  | 0, _, _ => []
  | _ + 1, [], _ => []
  | n + 1, p :: ps, tape =>
    let i := tape.headD 0 % (p :: ps).length
    (p :: ps).getD i p :: draw n ((p :: ps).eraseIdx i) tape.tail

/-- Model of `random.sample(pop, n)`: `ValueError` when `n` exceeds the population
size (checked before drawing), otherwise `n` draws without replacement. -/
def randomSample {α : Type} (pop : List α) (n : Nat) (tape : List Nat) :
    Except PyErr (List α) :=
  if n ≤ pop.length then .ok (draw n pop tape) else .error .valueError

/-- Python `word_list[k]["word"]`: the dict lookup of a sampled key always
succeeds; accessing a missing `"word"` field raises `KeyError`. -/
def getWordField (word_list : List (String × Record)) (k : String) :
    Except PyErr String :=
  match List.lookup k word_list with
  | some r =>
    match r.word with
    | some w => .ok w
    | none => .error .keyError
  | none => .error .keyError

/-- Model of `get_n_random_words` (`src/agent/tools.py`, lines 16-52) as a function
of the loaded word list and the randomness tape:
`random.sample(list(word_list.keys()), n)`, then the `"word"` field of
each sampled record, in sample order. -/
def get_n_random_words (word_list : List (String × Record)) (n : Nat)
    (tape : List Nat) : Except PyErr (List String) :=
  match randomSample (word_list.map Prod.fst) n tape with
  | .error e => .error e
  | .ok ks => ks.mapM (getWordField word_list)

/-- The dict comprehension of `src/agent/tools.py` line 97:
`{k: v for k, v in word_list.items() if v["word_difficulty"] ==
 difficulty_level}`; accessing `v["word_difficulty"]` raises `KeyError`
at the first record missing it. -/
def filterByDifficulty :
    List (String × Record) → String → Except PyErr (List (String × Record))
  | [], _ => .ok []
  | (k, v) :: rest, d =>
    match v.word_difficulty with
    | none => .error .keyError
    | some wd =>
      match filterByDifficulty rest d with
      | .error e => .error e
      | .ok tail => .ok (if wd == d then (k, v) :: tail else tail)

/-- Model of `get_n_random_words_by_difficulty_level` (`src/agent/tools.py`, lines
55-102): filter the word list by the `"word_difficulty"` field, sample
from the filtered keys, read the `"word"` field of each sampled record. -/
def get_n_random_words_by_difficulty_level (word_list : List (String × Record))
    (difficulty_level : String) (n : Nat) (tape : List Nat) :
    Except PyErr (List String) :=
  match filterByDifficulty word_list difficulty_level with
  | .error e => .error e
  | .ok filtered =>
    match randomSample (filtered.map Prod.fst) n tape with
    | .error e => .error e
    | .ok ks => ks.mapM (getWordField filtered)

/-! ### Helper lemmas -/

theorem draw_length {α : Type} (n : Nat) (pop : List α) (tape : List Nat)
    (h : n ≤ pop.length) : (draw n pop tape).length = n := by
  induction n generalizing pop tape with
  | zero => rfl
  | succ n ih =>
    match pop with
    | [] => simp at h
    | p :: ps =>
      have hi : tape.headD 0 % (p :: ps).length < (p :: ps).length :=
        Nat.mod_lt _ (by simp)
      have hlen := List.length_eraseIdx_of_lt hi
      simp only [draw, List.length_cons]
      simp only [List.length_cons] at h hlen
      rw [ih _ tape.tail (by omega)]

theorem draw_mem {α : Type} (n : Nat) (pop : List α) (tape : List Nat) {x : α}
    (hx : x ∈ draw n pop tape) : x ∈ pop := by
  induction n generalizing pop tape with
  | zero => simp [draw] at hx
  | succ n ih =>
    match pop with
    | [] => simp [draw] at hx
    | p :: ps =>
      have hi : tape.headD 0 % (p :: ps).length < (p :: ps).length :=
        Nat.mod_lt _ (by simp)
      simp only [draw] at hx
      rcases List.mem_cons.mp hx with h1 | h2
      · rw [h1, List.getD_eq_getElem _ _ hi]
        exact List.getElem_mem hi
      · exact List.mem_of_mem_eraseIdx (ih _ _ h2)

theorem getD_cons_eraseIdx_perm {α : Type} (l : List α) (d : α) (i : Nat)
    (h : i < l.length) : l.Perm (l.getD i d :: l.eraseIdx i) := by
  rw [List.getD_eq_getElem _ _ h, List.eraseIdx_eq_take_drop_succ]
  conv_lhs => rw [← List.take_append_drop i l, List.drop_eq_getElem_cons h]
  exact List.perm_middle

theorem draw_nodup {α : Type} (n : Nat) (pop : List α) (tape : List Nat)
    (h : pop.Nodup) : (draw n pop tape).Nodup := by
  induction n generalizing pop tape with
  | zero => simp [draw]
  | succ n ih =>
    match pop with
    | [] => simp [draw]
    | p :: ps =>
      have hi : tape.headD 0 % (p :: ps).length < (p :: ps).length :=
        Nat.mod_lt _ (by simp)
      have hperm := getD_cons_eraseIdx_perm (p :: ps) p _ hi
      have h2 := (hperm.nodup_iff).mp h
      rw [List.nodup_cons] at h2
      simp only [draw]
      refine List.nodup_cons.mpr ⟨?_, ih _ _ h2.2⟩
      intro hmem
      exact h2.1 (draw_mem _ _ _ hmem)

theorem mapM_ok_of_forall {α β : Type} (l : List α) (f : α → Except PyErr β)
    (g : α → β) (h : ∀ x ∈ l, f x = .ok (g x)) : l.mapM f = .ok (l.map g) := by
  induction l with
  | nil => rfl
  | cons a l ih =>
    rw [List.mapM_cons, h a (List.mem_cons_self a l),
      ih (fun x hx => h x (List.mem_cons_of_mem a hx))]
    rfl

theorem mapM_ok_length {α β : Type} (l : List α) (f : α → Except PyErr β)
    (ws : List β) (h : l.mapM f = .ok ws) : ws.length = l.length := by
  induction l generalizing ws with
  | nil =>
    rw [List.mapM_nil] at h
    cases h
    rfl
  | cons a l ih =>
    rw [List.mapM_cons] at h
    match hfa : f a with
    | .error e =>
      rw [hfa] at h
      simp only [Bind.bind, Except.bind] at h
      cases h
    | .ok b =>
      rw [hfa] at h
      simp only [Bind.bind, Except.bind] at h
      match hrest : l.mapM f with
      | .error e =>
        rw [hrest] at h
        cases h
      | .ok bs =>
        rw [hrest] at h
        simp only [pure, Except.pure, Except.ok.injEq] at h
        rw [← h, List.length_cons, List.length_cons, ih bs hrest]

theorem lookup_mem {α β : Type} [BEq α] [LawfulBEq α] {l : List (α × β)} {k : α}
    {b : β} (h : List.lookup k l = some b) : (k, b) ∈ l := by
  obtain ⟨l₁, l₂, rfl, -⟩ := List.lookup_eq_some_iff.mp h
  exact List.mem_append_right _ (List.mem_cons_self _ _)

theorem lookup_of_mem_keys {α β : Type} [BEq α] [LawfulBEq α]
    {l : List (α × β)} {k : α} (h : k ∈ l.map Prod.fst) :
    ∃ b, List.lookup k l = some b := by
  obtain ⟨p, hp, hpk⟩ := List.mem_map.mp h
  have : (List.lookup k l).isSome :=
    List.lookup_isSome_iff.mpr ⟨p, hp, by simp [hpk]⟩
  exact Option.isSome_iff_exists.mp this

theorem randomSample_ok_length {α : Type} {pop : List α} {n : Nat}
    {tape : List Nat} {ks : List α} (h : randomSample pop n tape = .ok ks) :
    ks.length = n := by
  unfold randomSample at h
  split at h
  · cases h
    exact draw_length _ _ _ ‹_›
  · cases h

theorem pyObjGet_of_no_key (fields : List (String × Json)) (k : String) (d : Json)
    (h : ∀ kv ∈ fields, kv.fst ≠ k) : pyObjGet fields k d = d := by
  unfold pyObjGet
  rw [List.find?_eq_none.mpr]
  intro kv hkv
  simpa using h kv (List.mem_reverse.mp hkv)

theorem buildModelMap_eq_nil (items : List Json)
    (h : ∀ item ∈ items, isDict item = false) :
    buildModelMap items = .ok [] := by
  induction items with
  | nil => rfl
  | cons item rest ih =>
    have hd := h item (List.mem_cons_self _ _)
    have hr := ih (fun x hx => h x (List.mem_cons_of_mem _ hx))
    cases item <;> simp_all [isDict, buildModelMap]

theorem buildModelMap_ok_of_hashable (items : List Json)
    (h : ∀ item ∈ items, entrySourceHashable item = true) :
    ∃ m, buildModelMap items = .ok m := by
  induction items with
  | nil => exact ⟨[], rfl⟩
  | cons item rest ih =>
    have hd := h item (List.mem_cons_self _ _)
    obtain ⟨m, hm⟩ := ih (fun x hx => h x (List.mem_cons_of_mem _ hx))
    match item with
    | .null | .bool _ | .num _ | .str _ | .arr _ =>
      exact ⟨m, by simpa [buildModelMap] using hm⟩
    | .obj ifields =>
      simp only [entrySourceHashable] at hd
      exact ⟨(pyObjGet ifields "source" (Json.str ""),
          pyObjGet ifields "target" (Json.str "")) :: m,
        by simp [buildModelMap, hd, hm]⟩

theorem translateWordsFromParsed_eq (words : List String)
    (fields : List (String × Json)) (items : List Json)
    (m : List (Json × Json))
    (hT : pyObjGet fields "translations" (Json.arr []) = Json.arr items)
    (hM : buildModelMap items = .ok m) :
    translateWordsFromParsed words (Json.obj fields) =
      .ok (words.map (fun w =>
        { source := w
          target := (modelMapGet m w).getD
            ((modelMapGet m (pyCapitalize w)).getD (.str w)) })) := by
  simp only [translateWordsFromParsed, hT, pyIter, hM]

theorem modelMapGet_getD_cases (m : List (Json × Json)) (w : String) :
    (∃ t, modelMapGet m w = some t ∧
      (modelMapGet m w).getD ((modelMapGet m (pyCapitalize w)).getD (.str w)) = t) ∨
    (modelMapGet m w = none ∧
      ∃ t, modelMapGet m (pyCapitalize w) = some t ∧
        (modelMapGet m w).getD
          ((modelMapGet m (pyCapitalize w)).getD (.str w)) = t) ∨
    (modelMapGet m w = none ∧ modelMapGet m (pyCapitalize w) = none ∧
      (modelMapGet m w).getD
        ((modelMapGet m (pyCapitalize w)).getD (.str w)) = Json.str w) := by
  cases h1 : modelMapGet m w <;> cases h2 : modelMapGet m (pyCapitalize w) <;>
    simp [h1, h2]

/-! ### Claim theorems -/

/-- C1 counterexample: a response entry whose `"source"` value is a JSON
list is used as a dict key by the comprehension of `tools.py` line 151,
so the call raises `TypeError` (unhashable type) instead of returning a
pair list — both from the parsed value and end to end from raw text. -/
theorem unhashable_source_type_error :
    translateWordsFromParsed ["haus"]
        (Json.obj [("translations", Json.arr
          [Json.obj [("source", Json.arr [])]])]) = .error .typeError ∧
    translate_words ["haus"]
        "\x7b\"translations\": [\x7b\"source\": []\x7d]\x7d" =
      .error .typeError :=
  ⟨rfl, rfl⟩

/-- C1 amended: for every input word list and every parsed service
response object whose `"translations"` entries all have hashable
`"source"` values (any strings, numbers, booleans or nulls, in any
order, with any extraneous entries — only a list- or object-valued
`"source"` instead raises `TypeError`), the reconciler returns a pair
list of the same length whose `source` values are exactly the input
words in input order. -/
theorem translate_words_length_and_order (words : List String)
    (fields : List (String × Json)) (items : List Json)
    (hT : pyObjGet fields "translations" (Json.arr []) = Json.arr items)
    (hh : ∀ item ∈ items, entrySourceHashable item = true) :
    ∃ pairs, translateWordsFromParsed words (Json.obj fields) = .ok pairs ∧
      pairs.map TranslationPair.source = words ∧
      pairs.length = words.length := by
  obtain ⟨m, hm⟩ := buildModelMap_ok_of_hashable items hh
  refine ⟨_, translateWordsFromParsed_eq words fields items m hT hm, ?_, ?_⟩
  · rw [List.map_map]
    exact List.map_id words
  · rw [List.length_map]

theorem translate_words_length_and_order_witness :
    ∃ pairs,
      translateWordsFromParsed ["katze", "haus"]
          (Json.obj [("translations", Json.arr
            [Json.obj [("source", Json.str "haus"), ("target", Json.str "house")],
             Json.obj [("extra", Json.num "1")]])]) = .ok pairs ∧
        pairs.map TranslationPair.source = ["katze", "haus"] ∧
        pairs.length = (["katze", "haus"] : List String).length :=
  translate_words_length_and_order ["katze", "haus"] _ _ rfl (by decide)

/-- C2: every emitted pair's target is the looked-up translation for its
source word in the built lookup; else the looked-up translation for the
capitalized form; else the source word itself — and the batch still
succeeds. -/
theorem translate_words_target_policy (words : List String)
    (fields : List (String × Json)) (items : List Json)
    (m : List (Json × Json)) (pairs : List TranslationPair)
    (hT : pyObjGet fields "translations" (Json.arr []) = Json.arr items)
    (hM : buildModelMap items = .ok m)
    (hok : translateWordsFromParsed words (Json.obj fields) = .ok pairs)
    (p : TranslationPair) (hp : p ∈ pairs) :
    (∃ t, modelMapGet m p.source = some t ∧
      p.target = t) ∨
    (modelMapGet m p.source = none ∧
      ∃ t, modelMapGet m (pyCapitalize p.source) = some t ∧
        p.target = t) ∨
    (modelMapGet m p.source = none ∧
      modelMapGet m (pyCapitalize p.source) = none ∧
      p.target = Json.str p.source) := by
  rw [translateWordsFromParsed_eq words fields items m hT hM] at hok
  injection hok with hpairs
  subst hpairs
  obtain ⟨w, hw, rfl⟩ := List.mem_map.mp hp
  exact modelMapGet_getD_cases m w

theorem translate_words_target_policy_witness :
    (∃ t, modelMapGet [(Json.str "Katze", Json.str "cat")]
        (TranslationPair.mk "katze" (Json.str "cat")).source = some t ∧
      (TranslationPair.mk "katze" (Json.str "cat")).target = t) ∨
    (modelMapGet [(Json.str "Katze", Json.str "cat")]
        (TranslationPair.mk "katze" (Json.str "cat")).source = none ∧
      ∃ t, modelMapGet [(Json.str "Katze", Json.str "cat")]
        (pyCapitalize (TranslationPair.mk "katze" (Json.str "cat")).source) =
          some t ∧
        (TranslationPair.mk "katze" (Json.str "cat")).target = t) ∨
    (modelMapGet [(Json.str "Katze", Json.str "cat")]
        (TranslationPair.mk "katze" (Json.str "cat")).source = none ∧
      modelMapGet [(Json.str "Katze", Json.str "cat")]
        (pyCapitalize (TranslationPair.mk "katze" (Json.str "cat")).source) =
          none ∧
      (TranslationPair.mk "katze" (Json.str "cat")).target =
        Json.str (TranslationPair.mk "katze" (Json.str "cat")).source) :=
  translate_words_target_policy ["katze"]
    [("translations", Json.arr
      [Json.obj [("source", Json.str "Katze"), ("target", Json.str "cat")]])]
    [Json.obj [("source", Json.str "Katze"), ("target", Json.str "cat")]]
    [(Json.str "Katze", Json.str "cat")]
    [TranslationPair.mk "katze" (Json.str "cat")] rfl rfl rfl
    (TranslationPair.mk "katze" (Json.str "cat")) (List.Mem.head _)

/-- C3: `translate_words` first parses the whole response text strictly;
on failure it recovers the single brace-delimited fragment and parses
that; with no recoverable fragment (or an unparsable one) it fails with a
`ValueError` and produces no partial result. -/
theorem translate_words_parse_policy (text : String) :
    (∀ j, jsonParse text = some j → parseResponse text = .ok j) ∧
    (jsonParse text = none →
      (∀ frag, extractBracesSpan text = some frag →
        ((∀ j, jsonParse frag = some j → parseResponse text = .ok j) ∧
          (jsonParse frag = none →
            parseResponse text = .error .valueError))) ∧
      (extractBracesSpan text = none →
        parseResponse text = .error .valueError)) ∧
    (∀ e, parseResponse text = .error e →
      ∀ words, translate_words words text = .error e) := by
  refine ⟨?_, ?_, ?_⟩
  · intro j hj
    simp [parseResponse, hj]
  · intro hnone
    constructor
    · intro frag hfrag
      constructor
      · intro j hj
        simp [parseResponse, hnone, hfrag, hj]
      · intro hj
        simp [parseResponse, hnone, hfrag, hj]
    · intro hfrag
      simp [parseResponse, hnone, hfrag]
  · intro e he words
    simp [translate_words, he]

theorem translate_words_parse_policy_witness :
    parseResponse "Sure! Here it is: \x7b\"translations\": []\x7d Enjoy." =
      .ok (Json.obj [("translations", Json.arr [])]) ∧
    parseResponse "I could not translate that, alas." =
      .error .valueError ∧
    translate_words ["haus"] "I could not translate that, alas." =
      .error .valueError :=
  ⟨(((translate_words_parse_policy
        "Sure! Here it is: \x7b\"translations\": []\x7d Enjoy.").2.1 rfl).1
      _ rfl).1 _ rfl,
   ((translate_words_parse_policy
      "I could not translate that, alas.").2.1 rfl).2 rfl,
   (translate_words_parse_policy
      "I could not translate that, alas.").2.2 PyErr.valueError
     (((translate_words_parse_policy
        "I could not translate that, alas.").2.1 rfl).2 rfl) ["haus"]⟩

/-- C9: a response object with no `"translations"` key, or whose
`"translations"` list holds only non-dict items, raises no error: the
lookup is empty and every input word falls back to itself. -/
theorem translate_words_no_usable_entries (words : List String)
    (fields : List (String × Json)) :
    ((∀ kv ∈ fields, kv.fst ≠ "translations") →
      translateWordsFromParsed words (Json.obj fields) =
        .ok (words.map (fun w => { source := w, target := Json.str w }))) ∧
    (∀ items, pyObjGet fields "translations" (Json.arr []) = Json.arr items →
      (∀ item ∈ items, isDict item = false) →
      translateWordsFromParsed words (Json.obj fields) =
        .ok (words.map (fun w => { source := w, target := Json.str w }))) := by
  constructor
  · intro h
    rw [translateWordsFromParsed_eq words fields [] []
      (pyObjGet_of_no_key _ _ _ h) rfl]
    rfl
  · intro items hT hnd
    rw [translateWordsFromParsed_eq words fields items [] hT
      (buildModelMap_eq_nil items hnd)]
    rfl

theorem translate_words_no_usable_entries_witness :
    translateWordsFromParsed ["haus", "katze"]
        (Json.obj [("note", Json.str "x")]) =
      .ok [{ source := "haus", target := Json.str "haus" },
           { source := "katze", target := Json.str "katze" }] :=
  (translate_words_no_usable_entries ["haus", "katze"]
    [("note", Json.str "x")]).1 (by decide)

/-- C10: a response entry missing its `"source"` or `"target"` key
contributes the empty string for the missing field, so an input word whose
entry lacks `"target"` gets the empty string as target, not the identity
fallback. -/
theorem translate_words_missing_fields_default
    (ifields : List (String × Json)) :
    (isHashable (pyObjGet ifields "source" (Json.str "")) = true →
      buildModelMap [Json.obj ifields] =
        .ok [(pyObjGet ifields "source" (Json.str ""),
          pyObjGet ifields "target" (Json.str ""))]) ∧
    ((∀ kv ∈ ifields, kv.fst ≠ "source") →
      pyObjGet ifields "source" (Json.str "") = Json.str "") ∧
    ((∀ kv ∈ ifields, kv.fst ≠ "target") →
      pyObjGet ifields "target" (Json.str "") = Json.str "") ∧
    (∀ (words : List String) (w : String) (pairs : List TranslationPair),
      pyObjGet ifields "source" (Json.str "") = Json.str w →
      (∀ kv ∈ ifields, kv.fst ≠ "target") →
      translateWordsFromParsed words
          (Json.obj [("translations", Json.arr [Json.obj ifields])]) =
        .ok pairs →
      ∀ p ∈ pairs, p.source = w → p.target = Json.str "") := by
  refine ⟨?_, pyObjGet_of_no_key _ _ _, pyObjGet_of_no_key _ _ _, ?_⟩
  · intro hh
    simp [buildModelMap, hh]
  · intro words w pairs hsrc htgt hok p hp hps
    have hm : buildModelMap [Json.obj ifields] =
        .ok [(Json.str w, Json.str "")] := by
      simp [buildModelMap, hsrc, isHashable, pyObjGet_of_no_key _ _ _ htgt]
    rw [translateWordsFromParsed_eq words
      [("translations", Json.arr [Json.obj ifields])]
      [Json.obj ifields] [(Json.str w, Json.str "")] rfl hm] at hok
    injection hok with hpairs
    subst hpairs
    obtain ⟨w2, hw2, rfl⟩ := List.mem_map.mp hp
    have hw2w : w2 = w := hps
    subst hw2w
    show (modelMapGet [(Json.str w2, Json.str "")] w2).getD
      ((modelMapGet [(Json.str w2, Json.str "")]
        (pyCapitalize w2)).getD (Json.str w2)) = Json.str ""
    simp [modelMapGet, strKeyMatches]

theorem translate_words_missing_fields_default_witness :
    (∀ p ∈ [TranslationPair.mk "haus" (Json.str "")],
      p.source = "haus" → p.target = Json.str "") ∧
    translateWordsFromParsed ["haus"]
        (Json.obj [("translations", Json.arr
          [Json.obj [("source", Json.str "haus")]])]) =
      .ok [TranslationPair.mk "haus" (Json.str "")] :=
  ⟨(translate_words_missing_fields_default
      [("source", Json.str "haus")]).2.2.2 ["haus"] "haus"
      [TranslationPair.mk "haus" (Json.str "")] rfl (by decide) rfl,
   rfl⟩

theorem filterByDifficulty_ok_of_all (wl : List (String × Record)) (d : String)
    (h : ∀ kv ∈ wl, kv.snd.word_difficulty.isSome) :
    ∃ fl, filterByDifficulty wl d = .ok fl := by
  induction wl with
  | nil => exact ⟨[], rfl⟩
  | cons kv rest ih =>
    obtain ⟨k, v⟩ := kv
    obtain ⟨wd, hwd⟩ := Option.isSome_iff_exists.mp
      (show v.word_difficulty.isSome from h (k, v) (List.mem_cons_self _ _))
    obtain ⟨fl2, hfl2⟩ := ih (fun kv2 h2 => h kv2 (List.mem_cons_of_mem _ h2))
    exact ⟨if wd == d then (k, v) :: fl2 else fl2,
      by simp [filterByDifficulty, hwd, hfl2]⟩

/-- C4: a requested count exceeding the eligible entries (all entries, or
the difficulty-filtered ones) fails with the `ValueError` that models
`InsufficientData`, and a successful call always returns exactly `count`
words — never a short or padded list. -/
theorem sample_insufficient_data (wl : List (String × Record)) (d : String)
    (n : Nat) (tape : List Nat) :
    (wl.length < n → get_n_random_words wl n tape = .error .valueError) ∧
    (∀ ws, get_n_random_words wl n tape = .ok ws → ws.length = n) ∧
    (∀ filtered, filterByDifficulty wl d = .ok filtered →
      filtered.length < n →
      get_n_random_words_by_difficulty_level wl d n tape =
        .error .valueError) ∧
    (∀ ws, get_n_random_words_by_difficulty_level wl d n tape = .ok ws →
      ws.length = n) := by
  refine ⟨?_, ?_, ?_, ?_⟩
  · intro h
    have hn : ¬ n ≤ wl.length := by omega
    simp [get_n_random_words, randomSample, hn]
  · intro ws h
    unfold get_n_random_words at h
    rcases hrs : randomSample (wl.map Prod.fst) n tape with e | ks <;>
      simp only [hrs] at h
    · exact Except.noConfusion h
    · rw [mapM_ok_length ks _ ws h]
      exact randomSample_ok_length hrs
  · intro filtered hf hlt
    have hn : ¬ n ≤ filtered.length := by omega
    simp [get_n_random_words_by_difficulty_level, hf, randomSample, hn]
  · intro ws h
    unfold get_n_random_words_by_difficulty_level at h
    rcases hf : filterByDifficulty wl d with e | filtered <;>
      simp only [hf] at h
    · exact Except.noConfusion h
    · rcases hrs : randomSample (filtered.map Prod.fst) n tape with e2 | ks <;>
        simp only [hrs] at h
      · exact Except.noConfusion h
      · rw [mapM_ok_length ks _ ws h]
        exact randomSample_ok_length hrs

theorem sample_insufficient_data_witness :
    get_n_random_words [("k1", ⟨some "uno", some "beginner"⟩)] 2 [] =
      .error .valueError ∧
    get_n_random_words_by_difficulty_level
        [("k1", ⟨some "uno", some "beginner"⟩)] "beginner" 2 [] =
      .error .valueError :=
  ⟨(sample_insufficient_data
      [("k1", ⟨some "uno", some "beginner"⟩)] "beginner" 2 []).1 (by decide),
   (sample_insufficient_data
      [("k1", ⟨some "uno", some "beginner"⟩)] "beginner" 2 []).2.2.1
     [("k1", ⟨some "uno", some "beginner"⟩)] rfl (by decide)⟩

/-- C5 counterexample: an invalid difficulty tier (`"expert"`) produces
exactly the same `ValueError` as a valid tier with too few entries — the
code raises no separate `InvalidArgument`-style error a caller could
distinguish. -/
theorem invalid_tier_not_distinguished :
    get_n_random_words_by_difficulty_level
        [("k1", ⟨some "hola", some "beginner"⟩)] "expert" 1 [0] =
      get_n_random_words_by_difficulty_level
        [("k1", ⟨some "hola", some "beginner"⟩)] "beginner" 2 [0] ∧
    get_n_random_words_by_difficulty_level
        [("k1", ⟨some "hola", some "beginner"⟩)] "expert" 1 [0] =
      .error .valueError ∧
    get_n_random_words_by_difficulty_level
        [("k1", ⟨some "hola", some "beginner"⟩)] "expert" 0 [0] =
      .ok [] :=
  ⟨rfl, rfl, rfl⟩

/-- C5 amended: a difficulty tier matching no record (in particular any
tier outside beginner/intermediate/advanced on a well-tagged word list)
merely yields an empty eligible set: with a positive count the call fails
with the same `ValueError` that models `InsufficientData`, and with count
zero it succeeds with the empty list. -/
theorem invalid_tier_amended (wl : List (String × Record)) (d : String)
    (n : Nat) (tape : List Nat)
    (hvalid : ∀ kv ∈ wl, kv.snd.word_difficulty = some "beginner" ∨
      kv.snd.word_difficulty = some "intermediate" ∨
      kv.snd.word_difficulty = some "advanced")
    (h1 : d ≠ "beginner") (h2 : d ≠ "intermediate") (h3 : d ≠ "advanced") :
    (0 < n → get_n_random_words_by_difficulty_level wl d n tape =
      .error .valueError) ∧
    get_n_random_words_by_difficulty_level wl d 0 tape = .ok [] := by
  have hfl : filterByDifficulty wl d = .ok [] := by
    induction wl with
    | nil => rfl
    | cons kv rest ih =>
      obtain ⟨k, v⟩ := kv
      have hrest := ih (fun kv2 h2 => hvalid kv2 (List.mem_cons_of_mem _ h2))
      rcases hvalid (k, v) (List.mem_cons_self _ _) with h | h | h <;>
        have hv : v.word_difficulty = _ := h <;>
        simp [filterByDifficulty, hv, hrest, Ne.symm h1, Ne.symm h2,
          Ne.symm h3]
  constructor
  · intro hn
    have hne : n ≠ 0 := by omega
    simp [get_n_random_words_by_difficulty_level, hfl, randomSample, hne]
  · simp only [get_n_random_words_by_difficulty_level, hfl]
    rfl

theorem invalid_tier_amended_witness :
    (0 < 1 → get_n_random_words_by_difficulty_level
        [("k1", ⟨some "hola", some "beginner"⟩),
         ("k2", ⟨some "rojo", some "advanced"⟩)] "expert" 1 [3] =
      .error .valueError) ∧
    get_n_random_words_by_difficulty_level
        [("k1", ⟨some "hola", some "beginner"⟩),
         ("k2", ⟨some "rojo", some "advanced"⟩)] "expert" 0 [3] = .ok [] :=
  invalid_tier_amended
    [("k1", ⟨some "hola", some "beginner"⟩),
     ("k2", ⟨some "rojo", some "advanced"⟩)] "expert" 1 [3]
    (by decide) (by decide) (by decide) (by decide)

/-- C6: whenever the count is within the word list's size, the keys are
distinct, every record carries a `word`, and distinct records carry
distinct words (as the cleaning pipeline's one-record-per-lemma export
guarantees), `get_n_random_words` succeeds with exactly `count` pairwise
distinct words, each the `word` field of some record. -/
theorem get_n_random_words_distinct (wl : List (String × Record)) (n : Nat)
    (tape : List Nat) (hn : n ≤ wl.length)
    (hkeys : (wl.map Prod.fst).Nodup)
    (hword : ∀ kv ∈ wl, kv.snd.word.isSome)
    (hinj : ∀ kv1 ∈ wl, ∀ kv2 ∈ wl, kv1.snd.word = kv2.snd.word →
      kv1.fst = kv2.fst) :
    ∃ ws, get_n_random_words wl n tape = .ok ws ∧ ws.length = n ∧
      ws.Nodup ∧ ∀ w ∈ ws, ∃ kv ∈ wl, kv.snd.word = some w := by
  have hnk : n ≤ (wl.map Prod.fst).length := by
    simpa using hn
  have hsample : randomSample (wl.map Prod.fst) n tape =
      .ok (draw n (wl.map Prod.fst) tape) := by
    simp [randomSample, hn]
  have hget : ∀ k ∈ draw n (wl.map Prod.fst) tape,
      getWordField wl k =
        .ok (((List.lookup k wl).bind Record.word).getD "") := by
    intro k hk
    obtain ⟨r, hr⟩ := lookup_of_mem_keys (draw_mem _ _ _ hk)
    obtain ⟨w, hw⟩ := Option.isSome_iff_exists.mp
      (show r.word.isSome from hword _ (lookup_mem hr))
    simp [getWordField, hr, hw]
  refine ⟨(draw n (wl.map Prod.fst) tape).map
    (fun k => ((List.lookup k wl).bind Record.word).getD ""),
    ?_, ?_, ?_, ?_⟩
  · unfold get_n_random_words
    rw [hsample]
    exact mapM_ok_of_forall _ _ _ hget
  · rw [List.length_map]
    exact draw_length _ _ _ hnk
  · refine List.Nodup.map_on ?_ (draw_nodup _ _ _ hkeys)
    intro k1 hk1 k2 hk2 hg
    obtain ⟨r1, hr1⟩ := lookup_of_mem_keys (draw_mem _ _ _ hk1)
    obtain ⟨r2, hr2⟩ := lookup_of_mem_keys (draw_mem _ _ _ hk2)
    obtain ⟨w1, hw1⟩ := Option.isSome_iff_exists.mp
      (show r1.word.isSome from hword _ (lookup_mem hr1))
    obtain ⟨w2, hw2⟩ := Option.isSome_iff_exists.mp
      (show r2.word.isSome from hword _ (lookup_mem hr2))
    simp [hr1, hr2, hw1, hw2] at hg
    exact hinj (k1, r1) (lookup_mem hr1) (k2, r2) (lookup_mem hr2)
      (by rw [hw1, hw2, hg])
  · intro w hw2
    obtain ⟨k, hk, rfl⟩ := List.mem_map.mp hw2
    obtain ⟨r, hr⟩ := lookup_of_mem_keys (draw_mem _ _ _ hk)
    obtain ⟨w0, hw0⟩ := Option.isSome_iff_exists.mp
      (show r.word.isSome from hword _ (lookup_mem hr))
    exact ⟨(k, r), lookup_mem hr, by simp [hr, hw0]⟩

theorem get_n_random_words_distinct_witness :
    ∃ ws, get_n_random_words
        [("k1", ⟨some "uno", some "beginner"⟩),
         ("k2", ⟨some "dos", some "advanced"⟩)] 2 [1] = .ok ws ∧
      ws.length = 2 ∧ ws.Nodup ∧
      ∀ w ∈ ws, ∃ kv ∈
        [("k1", Record.mk (some "uno") (some "beginner")),
         ("k2", Record.mk (some "dos") (some "advanced"))],
        kv.snd.word = some w :=
  get_n_random_words_distinct
    [("k1", ⟨some "uno", some "beginner"⟩),
     ("k2", ⟨some "dos", some "advanced"⟩)] 2 [1]
    (by decide) (by decide) (by decide) (by decide)

/-- C7 counterexample: a word list containing a record with neither a
`word` nor a `word_difficulty` field is not rejected: sampling succeeds
whenever the malformed record is not drawn (and trivially for count 0),
so no load-time `MalformedResource`-style validation exists. -/
theorem malformed_record_not_rejected :
    get_n_random_words
        [("k1", ⟨some "cat", some "beginner"⟩), ("k2", ⟨none, none⟩)]
        1 [0] = .ok ["cat"] ∧
    get_n_random_words [("k2", ⟨none, none⟩)] 0 [] = .ok [] :=
  ⟨rfl, rfl⟩

/-- C7 amended: field validation is lazy.  `get_n_random_words` succeeds
whenever every *sampled* record has a `word` field (malformed unsampled
records are never examined, and `word_difficulty` is never read), raising
`KeyError` only on access; `get_n_random_words_by_difficulty_level` reads
`word_difficulty` of every record while filtering, so any record missing
it makes that operation fail with `KeyError` (for every count). -/
theorem lazy_field_validation :
    (∀ (wl : List (String × Record)) (n : Nat) (tape : List Nat),
      n ≤ wl.length →
      (∀ k ∈ draw n (wl.map Prod.fst) tape, ∀ r,
        List.lookup k wl = some r → r.word.isSome) →
      ∃ ws, get_n_random_words wl n tape = .ok ws) ∧
    (∀ (wl : List (String × Record)) (d : String) (n : Nat)
      (tape : List Nat), (∃ kv ∈ wl, kv.snd.word_difficulty = none) →
      get_n_random_words_by_difficulty_level wl d n tape =
        .error .keyError) := by
  constructor
  · intro wl n tape hn hws
    have hsample : randomSample (wl.map Prod.fst) n tape =
        .ok (draw n (wl.map Prod.fst) tape) := by
      simp [randomSample, hn]
    have hget : ∀ k ∈ draw n (wl.map Prod.fst) tape,
        getWordField wl k =
          .ok (((List.lookup k wl).bind Record.word).getD "") := by
      intro k hk
      obtain ⟨r, hr⟩ := lookup_of_mem_keys (draw_mem _ _ _ hk)
      obtain ⟨w, hw⟩ := Option.isSome_iff_exists.mp (hws k hk r hr)
      simp [getWordField, hr, hw]
    refine ⟨(draw n (wl.map Prod.fst) tape).map
      (fun k => ((List.lookup k wl).bind Record.word).getD ""), ?_⟩
    unfold get_n_random_words
    rw [hsample]
    exact mapM_ok_of_forall _ _ _ hget
  · intro wl d n tape hex
    have hfl : filterByDifficulty wl d = .error .keyError := by
      induction wl with
      | nil => simp at hex
      | cons kv rest ih =>
        obtain ⟨k, v⟩ := kv
        rcases hv : v.word_difficulty with _ | wd
        · simp [filterByDifficulty, hv]
        · have hex2 : ∃ kv ∈ rest, kv.snd.word_difficulty = none := by
            rcases hex with ⟨kv2, hkv2, hkv2n⟩
            rcases List.mem_cons.mp hkv2 with h | h
            · rw [h] at hkv2n
              simp only [hv] at hkv2n
              cases hkv2n
            · exact ⟨kv2, h, hkv2n⟩
          simp [filterByDifficulty, hv, ih hex2]
    simp [get_n_random_words_by_difficulty_level, hfl]

theorem lazy_field_validation_witness :
    (∃ ws, get_n_random_words
        [("k1", ⟨some "cat", some "beginner"⟩),
         ("k2", ⟨none, some "advanced"⟩)] 1 [0] = .ok ws) ∧
    get_n_random_words_by_difficulty_level
        [("k1", ⟨some "cat", some "beginner"⟩), ("k2", ⟨some "dog", none⟩)]
        "beginner" 0 [] = .error .keyError :=
  ⟨lazy_field_validation.1
      [("k1", ⟨some "cat", some "beginner"⟩),
       ("k2", ⟨none, some "advanced"⟩)] 1 [0] (by decide) (by decide),
   lazy_field_validation.2
      [("k1", ⟨some "cat", some "beginner"⟩), ("k2", ⟨some "dog", none⟩)]
      "beginner" 0 []
      ⟨("k2", ⟨some "dog", none⟩), by decide, rfl⟩⟩

/-- C8: a request for zero words returns the empty list with no error,
with or without a difficulty filter, even over an empty eligible set. -/
theorem count_zero_empty :
    (∀ (wl : List (String × Record)) (tape : List Nat),
      get_n_random_words wl 0 tape = .ok []) ∧
    (∀ (wl : List (String × Record)) (d : String) (tape : List Nat),
      (∀ kv ∈ wl, kv.snd.word_difficulty.isSome) →
      get_n_random_words_by_difficulty_level wl d 0 tape = .ok []) := by
  constructor
  · intro wl tape
    simp only [get_n_random_words, randomSample, Nat.zero_le, if_pos]
    rfl
  · intro wl d tape hall
    obtain ⟨fl, hfl⟩ := filterByDifficulty_ok_of_all wl d hall
    simp only [get_n_random_words_by_difficulty_level, hfl, randomSample,
      Nat.zero_le, if_pos]
    rfl

theorem count_zero_empty_witness :
    get_n_random_words [("k1", ⟨some "uno", some "beginner"⟩)] 0 [7] =
      .ok [] ∧
    get_n_random_words_by_difficulty_level [] "beginner" 0 [] = .ok [] :=
  ⟨count_zero_empty.1 [("k1", ⟨some "uno", some "beginner"⟩)] [7],
   count_zero_empty.2 [] "beginner" [] (by decide)⟩
